import Mathlib

/-!
Verification of the agent-loop programs of this repository.

The Go sources embedded here:
* `src/experimemt/main.go` — the agentic loop (`Agent.Run`), its prompt
  builder, tool registry, response interpretation and the three registered
  tools (calculator, web_search, chris_tanti), plus the file-backed
  conversation history.
* `src/main.go` — the disk-agent executor (`executeToolCall`), which spawns
  only fixed external commands.
* `src/unnamed/part_002` — the interactive gemma agent, which decodes a
  structured response from the model and runs the command of a selected action
  string through `bash -c`.

Conventions of the embedding:
* Go strings are Lean `String`s; the character-level helpers mirror the
  `strings` package on the ASCII fragment exercised here (the Go Unicode
  space/case classes coincide with these on ASCII input).
* JSON numbers (Go `float64`) are modelled as rationals; no claim below
  depends on floating-point rounding.
* The filesystem is a map from path to file contents; the `os.Stat`
  not-exist check is `none`, `os.ReadFile`/`os.WriteFile` are lookup and
  update. I/O faults other than non-existence are not modelled.
* The LLM endpoint (`CallOllama`) is an oracle, a function from the call
  number and the prompt sent to the textual response; a successful HTTP
  exchange is assumed (claims about network failures are not in scope).
-/

/-! ## Character and string helpers mirroring the Go `strings` package -/

/-- Whitespace test used by `strings.TrimSpace` (ASCII fragment of
`unicode.IsSpace`). -/
def goIsSpace (c : Char) : Bool :=
  c = ' ' || c = '\t' || c = '\n' || c = '\x0b' || c = '\x0c' || c = '\r'

/-- Does `pat` occur at the head of `s`? -/
def hasPrefixL : List Char → List Char → Bool
  | [], _ => true
  | _ :: _, [] => false
  | p :: ps, c :: cs => p = c && hasPrefixL ps cs

/-- Go `strings.HasPrefix`. -/
def goStartsWith (s pat : String) : Bool :=
  hasPrefixL pat.data s.data

/-- Go `strings.TrimPrefix`: drop `pat` from the front when present,
otherwise return `s` unchanged. -/
def goTrimLead (s pat : String) : String :=
  if goStartsWith s pat then String.mk (s.data.drop pat.data.length) else s

/-- Drop everything up to and including a trailing `pat` occurrence
(Go `strings.TrimSuffix`). -/
def goTrimTail (s pat : String) : String :=
  if hasPrefixL pat.data.reverse s.data.reverse then
    String.mk (s.data.reverse.drop pat.data.length).reverse
  else s

/-- Left-trim of whitespace. -/
def trimLeftL (l : List Char) : List Char := l.dropWhile goIsSpace

/-- Right-trim of whitespace. -/
def trimRightL (l : List Char) : List Char := (l.reverse.dropWhile goIsSpace).reverse

/-- Go `strings.TrimSpace`. -/
def goTrimSpace (s : String) : String :=
  String.mk (trimRightL (trimLeftL s.data))

/-- Go `strings.ToLower` on the ASCII letters. -/
def goToLower (s : String) : String :=
  String.mk (s.data.map fun c =>
    if 'A' ≤ c && c ≤ 'Z' then Char.ofNat (c.toNat + 32) else c)

/-- Does `pat` occur somewhere inside `l`? -/
def containsL (pat : List Char) : List Char → Bool
  | [] => hasPrefixL pat []
  | c :: rest => hasPrefixL pat (c :: rest) || containsL pat rest

/-- Go `strings.Contains`. -/
def goContains (s pat : String) : Bool :=
  containsL pat.data s.data

/-- Concatenation of a list of strings (Go `strings.Builder` accumulation). -/
def strJoin : List String → String
  | [] => ""
  | s :: rest => s ++ strJoin rest

/-- Concatenation with a separator between elements. -/
def joinSep (sep : String) : List String → String
  | [] => ""
  | [s] => s
  | s :: rest => s ++ sep ++ joinSep sep rest

/-! ## Conversation history store (`src/experimemt/main.go` lines 63–84)

The backing filesystem is a map from file path to contents; a missing
entry is a file that does not exist. -/

/-- The filesystem seen through `os.Stat` / `os.ReadFile` / `os.WriteFile`. -/
def Fs : Type := String → Option String

/-- Write `contents` at `path` (`os.WriteFile`). -/
def fsWrite (fs : Fs) (path contents : String) : Fs :=
  fun p => if p = path then some contents else fs p

/-- Embedding of `Agent.GetConversationHistory`: a missing file yields the empty history
and no error; an existing file yields its contents. -/
def getConversationHistory (fs : Fs) (filePath : String) : Except String String :=
  match fs filePath with
  | none => .ok ""
  | some data => .ok data

/-- Embedding of `Agent.SaveConversationHistory`: overwrite the history file. -/
def saveConversationHistory (fs : Fs) (filePath history : String) : Fs :=
  fsWrite fs filePath history

/-! ## JSON values and decoding (Go `encoding/json`)

The fragment of `encoding/json` the agents rely on: a standard JSON value
grammar, with objects kept as field lists in encounter order.  Numbers are
rationals (Go decodes into `float64`; no claim depends on rounding).
String escapes cover the forms the sources and claims exercise
(`\" \\ \/ \b \f \n \r \t \uXXXX`, without surrogate pairing). -/

/-- A decoded JSON value (`interface\x7b\x7d` on the Go side). -/
inductive Json where
  | null
  | bool (b : Bool)
  | num (q : ℚ)
  | str (s : String)
  | arr (elems : List Json)
  | obj (fields : List (String × Json))

/-- Opening-brace character. -/
def lbraceC : Char := Char.ofNat 123

/-- Closing-brace character. -/
def rbraceC : Char := Char.ofNat 125

/-- JSON whitespace. -/
def jsonWs (c : Char) : Bool :=
  c = ' ' || c = '\t' || c = '\n' || c = '\r'

/-- Skip JSON whitespace. -/
def skipWs : List Char → List Char
  | [] => []
  | c :: r => if jsonWs c then skipWs r else c :: r

/-- Value of one hexadecimal digit, by code point: 48–57 are the decimal
digits, 97–102 lowercase a–f, 65–70 uppercase A–F. -/
def hexVal (c : Char) : Option Nat :=
  let n := c.toNat
  if 48 ≤ n && n ≤ 57 then some (n - 48)
  else if 97 ≤ n && n ≤ 102 then some (n - 87)
  else if 65 ≤ n && n ≤ 70 then some (n - 55)
  else none

/-- Decode a JSON string body after the opening quote; returns the content
and the remainder after the closing quote. -/
def parseStr : List Char → Option (List Char × List Char)
  | [] => none
  | '"' :: r => some ([], r)
  | '\\' :: e :: r =>
    match e with
    | '"' => (parseStr r).map fun p => ('"' :: p.1, p.2)
    | '\\' => (parseStr r).map fun p => ('\\' :: p.1, p.2)
    | '/' => (parseStr r).map fun p => ('/' :: p.1, p.2)
    | 'b' => (parseStr r).map fun p => ('\x08' :: p.1, p.2)
    | 'f' => (parseStr r).map fun p => ('\x0c' :: p.1, p.2)
    | 'n' => (parseStr r).map fun p => ('\n' :: p.1, p.2)
    | 'r' => (parseStr r).map fun p => ('\r' :: p.1, p.2)
    | 't' => (parseStr r).map fun p => ('\t' :: p.1, p.2)
    | 'u' =>
      match r with
      | a :: b :: c :: d :: r2 =>
        match ([a, b, c, d]).mapM hexVal with
        | some vs =>
          (parseStr r2).map fun p =>
            (Char.ofNat (vs.foldl (fun acc v => acc * 16 + v) 0) :: p.1, p.2)
        | none => none
      | _ => none
    | _ => none
  | c :: r => (parseStr r).map fun p => (c :: p.1, p.2)

/-- Is `c` an ASCII digit? -/
def isDigitC (c : Char) : Bool := '0' ≤ c && c ≤ '9'

/-- Read a run of digits, returning its value, its length and the rest. -/
def readDigits : List Char → Nat → Nat → (Nat × Nat × List Char)
  | [], acc, n => (acc, n, [])
  | c :: r, acc, n =>
    if isDigitC c then readDigits r (acc * 10 + (c.toNat - '0'.toNat)) (n + 1)
    else (acc, n, c :: r)

/-- Decode a JSON number (sign, integer part, optional fraction and
exponent) into a rational. -/
def parseNum (cs : List Char) : Option (ℚ × List Char) :=
  let neg := cs.head? == some '-'
  let cs1 := if neg then cs.tail else cs
  let (ip, ilen, cs2) := readDigits cs1 0 0
  if ilen = 0 then none else
  let (fp, flen, cs3) :=
    match cs2 with
    | '.' :: afterDot => readDigits afterDot 0 0
    | _ => (0, 0, cs2)
  if cs2 ≠ cs3 ∧ flen = 0 then none else
  let emark := cs3.head? == some 'e' || cs3.head? == some 'E'
  let cs4 := if emark then cs3.tail else cs3
  let eneg := cs4.head? == some '-'
  let cs5 := if cs4.head? == some '-' || cs4.head? == some '+'
    then cs4.tail else cs4
  let (ev, elen, cs6) := readDigits cs5 0 0
  if emark ∧ elen = 0 then none else
  let base : ℚ := (ip : ℚ) + (fp : ℚ) / ((10 : ℚ) ^ flen)
  let scaled : ℚ :=
    if emark then
      (if eneg then base / ((10 : ℚ) ^ ev) else base * ((10 : ℚ) ^ ev))
    else base
  some ((if neg then -scaled else scaled), if emark then cs6 else cs3)

mutual

/-- Decode one JSON value; fuel bounds the nesting recursion. -/
def parseVal : Nat → List Char → Option (Json × List Char)
  | 0, _ => none
  | fuel + 1, cs0 =>
    match skipWs cs0 with
    | [] => none
    | c :: r =>
      if c = '"' then (parseStr r).map fun p => (Json.str (String.mk p.1), p.2)
      else if c = lbraceC then parseObjFields fuel r []
      else if c = '[' then parseArrElems fuel r []
      else if c = 't' then
        match r with
        | 'r' :: 'u' :: 'e' :: r2 => some (Json.bool true, r2)
        | _ => none
      else if c = 'f' then
        match r with
        | 'a' :: 'l' :: 's' :: 'e' :: r2 => some (Json.bool false, r2)
        | _ => none
      else if c = 'n' then
        match r with
        | 'u' :: 'l' :: 'l' :: r2 => some (Json.null, r2)
        | _ => none
      else (parseNum (c :: r)).map fun p => (Json.num p.1, p.2)

/-- Decode the members of an object after its opening brace. -/
def parseObjFields : Nat → List Char → List (String × Json) →
    Option (Json × List Char)
  | 0, _, _ => none
  | fuel + 1, cs0, acc =>
    match skipWs cs0 with
    | [] => none
    | c :: r =>
      if (c == rbraceC) && acc.isEmpty then some (Json.obj [], r)
      else if c = '"' then
        match parseStr r with
        | none => none
        | some (key, r1) =>
          match skipWs r1 with
          | ':' :: r2 =>
            match parseVal fuel r2 with
            | none => none
            | some (v, r3) =>
              match skipWs r3 with
              | ',' :: r4 => parseObjFields fuel r4 (acc ++ [(String.mk key, v)])
              | c2 :: r4 =>
                if c2 = rbraceC then some (Json.obj (acc ++ [(String.mk key, v)]), r4)
                else none
              | [] => none
          | _ => none
      else none

/-- Decode the elements of an array after its opening bracket. -/
def parseArrElems : Nat → List Char → List Json → Option (Json × List Char)
  | 0, _, _ => none
  | fuel + 1, cs0, acc =>
    match skipWs cs0 with
    | [] => none
    | c :: r =>
      if (c == ']') && acc.isEmpty then some (Json.arr [], r)
      else
        match parseVal fuel (c :: r) with
        | none => none
        | some (v, r1) =>
          match skipWs r1 with
          | ',' :: r2 => parseArrElems fuel r2 (acc ++ [v])
          | ']' :: r2 => some (Json.arr (acc ++ [v]), r2)
          | _ => none

end

/-- Decode a full JSON document: one value with only whitespace after it
(`json.Unmarshal` rejects trailing data). -/
def jsonParse (s : String) : Option Json :=
  match parseVal (s.data.length + 2) s.data with
  | some (v, rest) => if skipWs rest = [] then some v else none
  | none => none

/-- Look a key up in a decoded object, later duplicates shadowing earlier
ones as in a Go map. -/
def jGet (fields : List (String × Json)) (key : String) : Option Json :=
  (fields.reverse.find? fun p => p.1 == key).map Prod.snd

/-! ## Tool registry (`src/experimemt/main.go` lines 16–29, 86–89) -/

/-- A registered capability: name, description, argument schema and the
callable (`Tool` in the Go source). -/
structure Tool where
  name : String
  description : String
  args : List (String × String)
  fn : List (String × Json) → Except String String

/-- The data decoded from the model response (`ToolInvocation`). -/
structure ToolInvocation where
  name : String
  args : List (String × Json)

/-- Name lookup in the registry (`a.Tools[name]` with the `ok` flag). -/
def lookupTool (tools : List Tool) (n : String) : Option Tool :=
  tools.find? fun t => t.name == n

/-! ## Prompt builder (`src/experimemt/main.go` lines 91–124)

`GetToolsPrompt` ranges over the Go map `a.Tools`; Go leaves map iteration
order unspecified (and randomizes it), so the embedding takes the
iteration order as an explicit list of tools.  `fmt.Sprintf("%v", args)`
on a `map[string]string` renders the entries sorted by key, which is
deterministic and modelled by `goFmtStrMap`. -/

/-- Insertion step for sorting the argument schema by key. -/
def insertByKey (p : String × String) :
    List (String × String) → List (String × String)
  | [] => [p]
  | q :: r => if p.1 < q.1 then p :: q :: r else q :: insertByKey p r

/-- Sort an association list by key, as the Go `fmt` package does for maps. -/
def sortByKey (l : List (String × String)) : List (String × String) :=
  l.foldr insertByKey []

/-- Go `fmt.Sprintf("%v", m)` for a `map[string]string`. -/
def goFmtStrMap (m : List (String × String)) : String :=
  "map[" ++ joinSep " " ((sortByKey m).map fun p => p.1 ++ ":" ++ p.2) ++ "]"

/-- The rendering of one tool inside `GetToolsPrompt`. -/
def toolBlock (t : Tool) : String :=
  "Name: " ++ t.name ++ "\n" ++ "Description: " ++ t.description ++ "\n" ++
    "Arguments: " ++ goFmtStrMap t.args ++ "\n\n"

/-- Embedding of `Agent.GetToolsPrompt`, for a given iteration order of the registry. -/
def getToolsPrompt (tools : List Tool) : String :=
  "AVAILABLE TOOLS:\n" ++ strJoin (tools.map toolBlock)

/-- The instruction preamble of `GeneratePrompt` up to the tools rendering. -/
def promptHead : String :=
  "\nYou are a helpful assistant. You have access to the following tools:\n\n"

/-- The instruction text of `GeneratePrompt` between the tools rendering and
the history. -/
def promptMid : String :=
  "\n\nThe user has given you a task. You should think step-by-step and then decide to either use one of the tools or respond with the final answer.\nYour final response should start with \x27Final Answer:\x27.\n\nIMPORTANT: If the user\x27s query contains the phrase \"chris tanti\", you must use the `chris_tanti` tool.\n\nThought: You should always think about what to do first, before using a tool.\nAction: To use a tool, you must use the following JSON format:\n\x7b \"name\": \"tool_name\", \"arguments\": \x7b \"arg1\": \"value1\", \"arg2\": \"value2\" \x7d \x7d\nObservation: The result of the tool\x27s action.\n\nCurrent conversation history:\n"

/-- Embedding of `Agent.GeneratePrompt`: preamble, tools, history, then the user turn. -/
def generatePrompt (tools : List Tool) (history userInput : String) : String :=
  promptHead ++ getToolsPrompt tools ++ promptMid ++ history ++
    "\nUser: " ++ userInput

/-! ## Response interpretation (`src/experimemt/main.go` lines 161–187)

The Go code takes the first match of the regular expression
`(?s)\x7b "name": ".*?" \x7d` — the literal text `\x7b "name": "`, a lazy
any-character run, then the literal text `" \x7d` — and feeds that match to
`json.Unmarshal`.  Leftmost-first matching with a lazy middle means: the
first position where the opening literal occurs, extended to the first
position afterwards where the closing literal occurs. -/

/-- The literal opening of the tool-action pattern. -/
def toolPatOpen : List Char := ("\x7b \"name\": \"").data

/-- The literal closing of the tool-action pattern. -/
def toolPatClose : List Char := ("\" \x7d").data

/-- Split a character list at the first occurrence of `pat`, returning the
part before it and the remainder starting at the occurrence. -/
def findSplit (pat : List Char) : List Char → Option (List Char × List Char)
  | [] => if pat.isEmpty then some ([], []) else none
  | c :: rest =>
    if hasPrefixL pat (c :: rest) then some ([], c :: rest)
    else
      match findSplit pat rest with
      | some (a, b) => some (c :: a, b)
      | none => none

/-- First match of the tool-action regular expression in `s`
(`re.FindStringSubmatch(response)` with the pattern above). -/
def goToolActionMatch (s : String) : Option String :=
  match findSplit toolPatOpen s.data with
  | none => none
  | some (_, fromOpen) =>
    let afterOpen := fromOpen.drop toolPatOpen.length
    match findSplit toolPatClose afterOpen with
    | none => none
    | some (mid, _) => some (String.mk (toolPatOpen ++ mid ++ toolPatClose))

/-- Message when no tool action is found in the response. -/
def noActionMsg : String :=
  "could not find a valid tool action in the LLM\x27s response"

/-- Message when the matched action fails to decode (the Go code appends
the detail text of the decoder, elided here). -/
def unmarshalErrMsg : String := "failed to unmarshal tool invocation JSON"

/-- Message when the iteration ceiling is exhausted. -/
def maxStepsMsg : String :=
  "agent failed to find a final answer within the maximum number of steps"

/-- Decoding of the `arguments` field by `json.Unmarshal` into
`map[string]interface\x7b\x7d`: absent or null gives the zero value, a
non-object is a type error. -/
def decodeInvArgs (fields : List (String × Json)) :
    Option (List (String × Json)) :=
  match jGet fields "arguments" with
  | none => some []
  | some Json.null => some []
  | some (Json.obj o) => some o
  | some _ => none

/-- Decoding of the matched text into `ToolInvocation` by `json.Unmarshal`: the
document must be a single valid JSON value; an object fills `name` (a
string) and `arguments` (an object), ignoring other fields; `null` leaves
the zero value; anything else is an error. -/
def unmarshalToolInvocation (s : String) : Except String ToolInvocation :=
  match jsonParse s with
  | some (Json.obj fields) =>
    match jGet fields "name", decodeInvArgs fields with
    | some (Json.str n), some a => .ok ⟨n, a⟩
    | none, some a => .ok ⟨"", a⟩
    | _, _ => .error unmarshalErrMsg
  | some Json.null => .ok ⟨"", []⟩
  | _ => .error unmarshalErrMsg

/-- The classification of one model response inside `Agent.Run`: a final
answer, a decoded tool call, no recognizable action, or a matched action
that failed to decode. -/
inductive Interp where
  | final (answer : String)
  | toolCall (inv : ToolInvocation)
  | noActionFound
  | unmarshalFailed

/-- Response interpretation as performed by `Agent.Run` lines 161–182:
`Final Answer:` prefix wins; otherwise the first regex match is decoded;
a failed decode aborts rather than trying later matches. -/
def interpretResponse (response : String) : Interp :=
  if goStartsWith response "Final Answer:" then
    .final (goTrimSpace (goTrimLead response "Final Answer:"))
  else
    match goToolActionMatch response with
    | none => .noActionFound
    | some jsonString =>
      match unmarshalToolInvocation jsonString with
      | .error _ => .unmarshalFailed
      | .ok inv => .toolCall inv

/-! ## The registered tools (`src/experimemt/main.go` lines 256–326) -/

/-- Go `fmt.Sprintf("%.2f", x)` transported to rationals: round to two
decimals (ties to even, as IEEE printing does) and render with a fixed
two-digit fraction.  No claim below depends on this formatting. -/
def goFmt2 (q : ℚ) : String :=
  let scaled : ℚ := q * 100
  let fl : ℤ := ⌊scaled⌋
  let frac : ℚ := scaled - fl
  let n : ℤ :=
    if frac > 1 / 2 then fl + 1
    else if frac < 1 / 2 then fl
    else if fl % 2 = 0 then fl else fl + 1
  let sign := if n < 0 then "-" else ""
  let m := n.natAbs
  sign ++ toString (m / 100) ++ "." ++
    (if m % 100 < 10 then "0" else "") ++ toString (m % 100)

/-- The callable of the calculator tool: validates `operation`, `num1`, `num2`
and computes; division by zero is a failure. -/
def calculatorFn (args : List (String × Json)) : Except String String :=
  match jGet args "operation" with
  | some (Json.str op) =>
    match jGet args "num1" with
    | some (Json.num n1) =>
      match jGet args "num2" with
      | some (Json.num n2) =>
        if op = "add" then .ok (goFmt2 (n1 + n2))
        else if op = "subtract" then .ok (goFmt2 (n1 - n2))
        else if op = "multiply" then .ok (goFmt2 (n1 * n2))
        else if op = "divide" then
          if n2 = 0 then .error "division by zero"
          else .ok (goFmt2 (n1 / n2))
        else .error ("unsupported operation: " ++ op)
      | _ => .error "missing or invalid \x27num2\x27 argument"
    | _ => .error "missing or invalid \x27num1\x27 argument"
  | _ => .error "missing \x27operation\x27 argument"

/-- The mock web-search callable. -/
def webSearchFn (args : List (String × Json)) : Except String String :=
  match jGet args "query" with
  | some (Json.str query) =>
    .ok ("Search results for \x27" ++ query ++
      "\x27: The weather is currently 75Â°F and sunny.")
  | _ => .error "missing \x27query\x27 argument"

/-- The canned reply of the chris_tanti tool. -/
def chrisTantiInfo : String :=
  "Chris Tanti is a prominent figure from cardiff that has made significant contributions to the fields of DEI in the workplace"

/-- The chris_tanti callable. -/
def chrisTantiFn (args : List (String × Json)) : Except String String :=
  match jGet args "query" with
  | some (Json.str query) =>
    if goContains (goToLower query) "chris tanti" then .ok chrisTantiInfo
    else .ok "I cannot provide information about this person."
  | _ => .error "missing \x27query\x27 argument"

/-- The calculator tool as registered in `main`. -/
def calculatorTool : Tool :=
  { name := "calculator"
    description := "A tool that can perform basic arithmetic operations."
    args := [("operation",
        "string (e.g., \x27add\x27, \x27subtract\x27, \x27multiply\x27, \x27divide\x27)"),
      ("num1", "number"), ("num2", "number")]
    fn := calculatorFn }

/-- The web_search tool as registered in `main`. -/
def webSearchTool : Tool :=
  { name := "web_search"
    description := "A tool that can search the internet for information."
    args := [("query", "string")]
    fn := webSearchFn }

/-- The chris_tanti tool as registered in `main`. -/
def chrisTantiTool : Tool :=
  { name := "chris_tanti"
    description := "A tool that provides specific, predefined information about the individual Chris Tanti."
    args := [("query", "string")]
    fn := chrisTantiFn }

/-- The registry built by `main` (registration order; name lookup is
order-insensitive since the names are distinct). -/
def theAgent : List Tool := [calculatorTool, webSearchTool, chrisTantiTool]

/-! ## The agent loop (`src/experimemt/main.go` lines 126–205) -/

/-- Outcome of `Agent.Run`: the returned `(string, error)` pair, the
filesystem after the run, and how many model calls were made. -/
structure RunOut where
  result : Except String String
  fs : Fs
  calls : Nat

/-- The bounded loop of `Agent.Run` (lines 149–204).  `oracle i prompt` is
the model response to the `i`-th call; `remaining` counts the loop
iterations still allowed (the Go loop runs `i = 0 .. 4`). -/
def runLoop (tools : List Tool) (oracle : Nat → String → String)
    (path userInput : String) :
    Nat → Nat → String → Fs → RunOut
  | i, 0, _, fs => ⟨.error maxStepsMsg, fs, i⟩
  | i, remaining + 1, history, fs =>
    let prompt := generatePrompt tools history userInput
    let response := oracle i prompt
    match interpretResponse response with
    | .final finalAnswer =>
      let history2 := history ++ "\nAssistant: " ++ finalAnswer
      ⟨.ok finalAnswer, fsWrite fs path history2, i + 1⟩
    | .noActionFound => ⟨.error noActionMsg, fs, i + 1⟩
    | .unmarshalFailed => ⟨.error unmarshalErrMsg, fs, i + 1⟩
    | .toolCall toolCall =>
      match lookupTool tools toolCall.name with
      | none => ⟨.error ("unknown tool: " ++ toolCall.name), fs, i + 1⟩
      | some tool =>
        let history2 :=
          match tool.fn toolCall.args with
          | .error e =>
            history ++ "\nObservation: Tool execution failed with error: " ++ e
          | .ok toolResult => history ++ "\nObservation: " ++ toolResult
        runLoop tools oracle path userInput (i + 1) remaining history2
          (fsWrite fs path history2)

/-- Embedding of `Agent.Run`: load the history, short-circuit on the chris-tanti
trigger phrase, otherwise run at most five loop iterations. -/
def run (tools : List Tool) (oracle : Nat → String → String) (fs : Fs)
    (historyFilePath userInput : String) : RunOut :=
  let history := match getConversationHistory fs historyFilePath with
    | .ok h => h
    | .error _ => ""
  if goContains (goToLower userInput) "chris tanti" then
    match lookupTool tools "chris_tanti" with
    | some tool =>
      match tool.fn [("query", Json.str userInput)] with
      | .error e => ⟨.error e, fs, 0⟩
      | .ok toolResult => ⟨.ok toolResult, fs, 0⟩
    | none =>
      -- In Go this would call a nil function; unreachable for `theAgent`.
      ⟨.error "chris_tanti tool not registered", fs, 0⟩
  else
    runLoop tools oracle historyFilePath userInput 0 5 history fs

/-! ## The interactive gemma agent (`src/unnamed/part_002`)

That program decodes the full model response into a `StructuredResponse`
(after stripping an optional fenced code block), lists the proposed
actions, and — when the user picks one — spawns
`exec.Command("bash", "-c", selectedAction.Command)`. -/

/-- A command the model proposes (`Action` in part_002). -/
structure GemmaAction where
  label : String
  command : String

/-- The structured response shape part_002 expects from the model. -/
structure StructuredResponse where
  text : String
  actions : List GemmaAction

/-- The response cleanup of part_002 lines 131–137: strip a leading
```json fence and a trailing fence, then trim whitespace. -/
def cleanGemmaResponse (s : String) : String :=
  let s1 := if goStartsWith s "```json" then
      goTrimTail (goTrimLead s "```json") "```"
    else s
  goTrimSpace s1

/-- Decode one element of the `actions` array. -/
def decodeGemmaAction (v : Json) : Option GemmaAction :=
  match v with
  | Json.obj fields =>
    let lab := match jGet fields "label" with
      | some (Json.str l) => some l
      | none => some ""
      | some Json.null => some ""
      | _ => none
    let cmd := match jGet fields "command" with
      | some (Json.str c) => some c
      | none => some ""
      | some Json.null => some ""
      | _ => none
    match lab, cmd with
    | some l, some c => some ⟨l, c⟩
    | _, _ => none
  | _ => none

/-- Map a decoder over a list, failing if any element fails. -/
def decodeAll {α : Type} (f : Json → Option α) : List Json → Option (List α)
  | [] => some []
  | v :: rest =>
    match f v, decodeAll f rest with
    | some a, some as2 => some (a :: as2)
    | _, _ => none

/-- Decoding of the cleaned response into `StructuredResponse` by `json.Unmarshal`. -/
def decodeStructuredResponse (s : String) : Option StructuredResponse :=
  match jsonParse s with
  | some (Json.obj fields) =>
    let text := match jGet fields "text" with
      | some (Json.str t) => some t
      | none => some ""
      | some Json.null => some ""
      | _ => none
    let acts := match jGet fields "actions" with
      | some (Json.arr vs) => decodeAll decodeGemmaAction vs
      | none => some []
      | some Json.null => some []
      | _ => none
    match text, acts with
    | some t, some a => some ⟨t, a⟩
    | _, _ => none
  | some Json.null => some ⟨"", []⟩
  | _ => none

/-- The argument vector part_002 line 156 hands to the operating system for
a chosen action: the model-produced command string is spliced into a shell
invocation verbatim. -/
def gemmaExecArgv (a : GemmaAction) : List String :=
  ["bash", "-c", a.command]

/-- The process part_002 spawns for a model response and a user menu
choice (lines 139–166): decode the structured response; when actions are
present and the 1-based choice is in range, spawn `bash -c` on the chosen
command of the chosen action. -/
def gemmaSelectedCommand (fullResponse : String) (choice : Nat) :
    Option (List String) :=
  match decodeStructuredResponse (cleanGemmaResponse fullResponse) with
  | some sr =>
    if decide (0 < sr.actions.length) && decide (0 < choice) &&
        decide (choice ≤ sr.actions.length) then
      some (gemmaExecArgv (sr.actions.getD (choice - 1) ⟨"", ""⟩))
    else none
  | none => none

/-! ## The disk-agent executor (`src/main.go`)

`executeToolCall` decodes the tool call of the model and, for the known tool
`run_disk_agent`, natively checks disk usage (spawning a fixed check
command per operating system) and conditionally spawns a fixed prune
command.  The usage percentage parsed from the check command output is
abstracted as the `usage` parameter; the model JSON influences nothing
but the tool-name comparison. -/

/-- The operating systems `executeToolCall` distinguishes. -/
inductive GoOS where
  | linux
  | windows
  | other

/-- The fixed disk-usage check command on Linux. -/
def dfCheckCmd : List String := ["df", "-h", "/"]

/-- The fixed disk-usage check command on Windows. -/
def wmicCheckCmd : List String :=
  ["cmd", "/c", "wmic logicaldisk get size,freespace,caption"]

/-- The fixed prune command. -/
def pruneCmd : List String := ["docker-compose", "system", "prune", "-f"]

/-- Every command line `executeToolCall` can ever spawn. -/
def diskAgentAllowlist : List (List String) := [dfCheckCmd, wmicCheckCmd, pruneCmd]

/-- Decoding of the model content into `ToolCall` by `json.Unmarshal`
(`tool_name` string; the empty-struct `parameters` field is not inspected
here — a malformed `parameters` value would make the Go decode fail and
spawn nothing, a subset of the spawn behaviour modelled below). -/
def decodeToolCallName (s : String) : Except String String :=
  match jsonParse s with
  | some (Json.obj fields) =>
    match jGet fields "tool_name" with
    | some (Json.str n) => .ok n
    | none => .ok ""
    | _ => .error "invalid JSON format for tool call"
  | some Json.null => .ok ""
  | _ => .error "invalid JSON format for tool call"

/-- The external processes `executeToolCall` spawns for a given model
tool-call JSON, operating system, and observed disk usage (the percentage
parsed from the check command output; on a failed check the prune is
never reached, a subset of this list). -/
def executeToolCallSpawns (toolCallJSON : String) (os : GoOS) (usage : Nat) :
    List (List String) :=
  match decodeToolCallName toolCallJSON with
  | .error _ => []
  | .ok n =>
    if n = "run_disk_agent" then
      match os with
      | .linux => dfCheckCmd :: (if usage > 75 then [pruneCmd] else [])
      | .windows => wmicCheckCmd :: (if usage > 75 then [pruneCmd] else [])
      | .other => []
    else []

/-! ## Derived observables used by the theorems -/

/-- Occurrence of `small` inside `big` as a contiguous substring. -/
def ContainsStr (big small : String) : Prop :=
  ∃ l r, big.data = l ++ small.data ++ r

/-- Does a model response drive the loop of `Agent.Run` into a normal tool step
(a decoded call on a registered tool, whose result or failure is folded
into the history before the next iteration)? -/
def continuesLoop (tools : List Tool) (response : String) : Bool :=
  match interpretResponse response with
  | .toolCall inv => (lookupTool tools inv.name).isSome
  | _ => false

/-! # Theorems -/

theorem data_append (s t : String) : (s ++ t).data = s.data ++ t.data := by
  cases s; cases t; rfl

theorem hasPrefixL_append (p t : List Char) : hasPrefixL p (p ++ t) = true := by
  induction p with
  | nil => rfl
  | cons c cs ih => simp [hasPrefixL, ih]

theorem str_append_assoc (a b c : String) : a ++ b ++ c = a ++ (b ++ c) := by
  cases a; cases b; cases c
  exact congrArg String.mk (List.append_assoc _ _ _)

theorem containsStr_self (s : String) : ContainsStr s s :=
  ⟨[], [], by simp⟩

theorem containsStr_appL {t s : String} (u : String) (h : ContainsStr t s) :
    ContainsStr (u ++ t) s := by
  obtain ⟨l, r, hd⟩ := h
  exact ⟨u.data ++ l, r, by rw [data_append, hd]; simp⟩

theorem containsStr_appR {t s : String} (u : String) (h : ContainsStr t s) :
    ContainsStr (t ++ u) s := by
  obtain ⟨l, r, hd⟩ := h
  exact ⟨l, r ++ u.data, by rw [data_append, hd]; simp⟩

theorem runLoop_zero (tools : List Tool) (oracle : Nat → String → String)
    (path userInput : String) (i : Nat) (history : String) (fs : Fs) :
    runLoop tools oracle path userInput i 0 history fs =
      ⟨.error maxStepsMsg, fs, i⟩ := rfl

theorem runLoop_succ (tools : List Tool) (oracle : Nat → String → String)
    (path userInput : String) (i r : Nat) (history : String) (fs : Fs) :
    runLoop tools oracle path userInput i (r + 1) history fs =
      (match interpretResponse
          (oracle i (generatePrompt tools history userInput)) with
       | .final finalAnswer =>
         ⟨.ok finalAnswer,
           fsWrite fs path (history ++ "\nAssistant: " ++ finalAnswer), i + 1⟩
       | .noActionFound => ⟨.error noActionMsg, fs, i + 1⟩
       | .unmarshalFailed => ⟨.error unmarshalErrMsg, fs, i + 1⟩
       | .toolCall toolCall =>
         match lookupTool tools toolCall.name with
         | none => ⟨.error ("unknown tool: " ++ toolCall.name), fs, i + 1⟩
         | some tool =>
           runLoop tools oracle path userInput (i + 1) r
             (match tool.fn toolCall.args with
              | .error e => history ++
                  "\nObservation: Tool execution failed with error: " ++ e
              | .ok toolResult => history ++ "\nObservation: " ++ toolResult)
             (fsWrite fs path
               (match tool.fn toolCall.args with
                | .error e => history ++
                    "\nObservation: Tool execution failed with error: " ++ e
                | .ok toolResult =>
                  history ++ "\nObservation: " ++ toolResult))) := rfl

/-- The history store round-trip (C9).  Saving a history string and
reloading it from the same path yields exactly the saved string: appending
observations and reloading reproduces the same turn sequence. -/
theorem C9_history_round_trip (fs : Fs) (filePath history : String) :
    getConversationHistory (saveConversationHistory fs filePath history)
      filePath = .ok history := by
  simp [getConversationHistory, saveConversationHistory, fsWrite]

/-- A first run with no prior session store (C10).  When no file exists at
the path, `GetConversationHistory` returns the empty history and no
error. -/
theorem C10_missing_history_is_empty (fs : Fs) (filePath : String)
    (h : fs filePath = none) :
    getConversationHistory fs filePath = .ok "" := by
  simp [getConversationHistory, h]

theorem C10_missing_history_is_empty_witness :
    getConversationHistory (fun _ => none) "conversation_history.json" =
      .ok "" :=
  C10_missing_history_is_empty (fun _ => none) "conversation_history.json" rfl

/-- Every response of the form `Final Answer: X` (C7), for any `X`
including the empty string, is interpreted as the terminal FINAL state
whose payload is the whitespace-trimmed remainder after the marker —
`X` itself whenever `X` carries no surrounding whitespace. -/
theorem C7_final_answer_payload (X : String) :
    interpretResponse ("Final Answer: " ++ X) = .final (goTrimSpace X) := by
  have hdata : ("Final Answer: " ++ X).data =
      "Final Answer:".data ++ (' ' :: X.data) := by
    rw [data_append]; rfl
  have hpre : goStartsWith ("Final Answer: " ++ X) "Final Answer:" = true := by
    unfold goStartsWith
    rw [hdata]
    exact hasPrefixL_append _ _
  have hlead : goTrimLead ("Final Answer: " ++ X) "Final Answer:" =
      String.mk (' ' :: X.data) := by
    unfold goTrimLead
    rw [hpre, if_pos rfl, hdata]
    exact congrArg String.mk (List.drop_left _ _)
  have htrim : goTrimSpace (String.mk (' ' :: X.data)) = goTrimSpace X := by
    unfold goTrimSpace trimLeftL
    simp [List.dropWhile_cons, goIsSpace]
  unfold interpretResponse
  rw [hpre, if_pos rfl, hlead, htrim]

/-- Amended C3: for a response that does not start with `Final Answer:`,
the interpreter searches for the first match of the tool-action regular
expression.  No match is the hard failure NO_ACTION_FOUND, on which the
run reports an error rather than guessing.  When a match exists, only that
first match is decoded: a successful decode yields TOOL_CALL with its name
and argument mapping, and a failed decode aborts the run with an unmarshal
error — an embedded valid `\x7bname, arguments\x7d` object elsewhere in
the response does not guarantee TOOL_CALL, because the lazy match can
truncate it. -/
theorem C3_first_regex_match_decides (response : String)
    (hfa : goStartsWith response "Final Answer:" = false) :
    (goToolActionMatch response = none →
      interpretResponse response = .noActionFound) ∧
    (∀ m, goToolActionMatch response = some m →
      (∀ inv, unmarshalToolInvocation m = .ok inv →
        interpretResponse response = .toolCall inv) ∧
      (∀ e, unmarshalToolInvocation m = .error e →
        interpretResponse response = .unmarshalFailed)) ∧
    (∀ (oracle : Nat → String → String) (path userInput : String)
      (i r : Nat) (history : String) (fs : Fs),
      oracle i (generatePrompt theAgent history userInput) = response →
      goToolActionMatch response = none →
      runLoop theAgent oracle path userInput i (r + 1) history fs =
        ⟨.error noActionMsg, fs, i + 1⟩) := by
  refine ⟨?_, ?_, ?_⟩
  · intro hm
    unfold interpretResponse
    rw [hfa, if_neg Bool.false_ne_true, hm]
  · intro m hm
    constructor
    · intro inv hok
      unfold interpretResponse
      rw [hfa, if_neg Bool.false_ne_true]
      simp only [hm, hok]
    · intro e herr
      unfold interpretResponse
      rw [hfa, if_neg Bool.false_ne_true]
      simp only [hm, herr]
  · intro oracle path userInput i r history fs horacle hm
    have hint : interpretResponse response = .noActionFound := by
      unfold interpretResponse
      rw [hfa, if_neg Bool.false_ne_true, hm]
    rw [runLoop_succ]
    simp only [horacle, hint]

theorem C3_first_regex_match_decides_witness :
    interpretResponse "I am thinking." = Interp.noActionFound ∧
    runLoop theAgent (fun _ _ => "I am thinking.")
        "conversation_history.json" "hi" 0 4 "" (fun _ => none) =
      ⟨.error noActionMsg, (fun _ => none), 1⟩ := by
  have h := C3_first_regex_match_decides "I am thinking." rfl
  exact ⟨h.1 rfl,
    h.2.2 (fun _ _ => "I am thinking.") "conversation_history.json" "hi"
      0 3 "" (fun _ => none) rfl rfl⟩

/-- Counterexample to C3 as stated: this response is itself a valid JSON
object of the shape `\x7bname, arguments\x7d` (so it certainly contains
one), yet the interpreter does not yield TOOL_CALL for it — the lazy regex
match stops at the first `" \x7d` inside the arguments object, producing a
truncated, unparseable fragment, and the step aborts with an unmarshal
error instead of dispatching web_search (and instead of NO_ACTION_FOUND). -/
theorem C3_embedded_json_counterexample :
    jsonParse
        "\x7b \"name\": \"web_search\", \"arguments\": \x7b \"query\": \"cats\" \x7d \x7d" =
      some (Json.obj [("name", Json.str "web_search"),
        ("arguments", Json.obj [("query", Json.str "cats")])]) ∧
    interpretResponse
        "\x7b \"name\": \"web_search\", \"arguments\": \x7b \"query\": \"cats\" \x7d \x7d" =
      Interp.unmarshalFailed :=
  ⟨rfl, rfl⟩

theorem toolBlock_contains_name (t : Tool) : ContainsStr (toolBlock t) t.name := by
  unfold toolBlock
  exact containsStr_appR _ (containsStr_appR _ (containsStr_appR _
    (containsStr_appR _ (containsStr_appR _ (containsStr_appR _
      (containsStr_appR _ (containsStr_appL _ (containsStr_self _))))))))

theorem toolsPrompt_contains_name (tools : List Tool) (t : Tool)
    (ht : t ∈ tools) : ContainsStr (strJoin (tools.map toolBlock)) t.name := by
  induction tools with
  | nil => cases ht
  | cons a rest ih =>
    show ContainsStr (toolBlock a ++ strJoin (rest.map toolBlock)) t.name
    cases ht with
    | head => exact containsStr_appR _ (toolBlock_contains_name t)
    | tail _ ht2 => exact containsStr_appL _ (ih ht2)

/-- Amended C4: the prompt builder is a pure function of the history, the
user input and the rendered tool sequence, and for every iteration order
of the registered tools the produced prompt contains the user input
verbatim and the name of every registered tool.  Because Go map iteration fixes
no order, two calls over the same registered tool set may render the tool
blocks in different orders and so produce different strings; the prompts
coincide whenever the iteration order coincides. -/
theorem C4_prompt_contains_input_and_tools (tools : List Tool)
    (history userInput : String) :
    ContainsStr (generatePrompt tools history userInput) userInput ∧
    ∀ t, t ∈ tools →
      ContainsStr (generatePrompt tools history userInput) t.name := by
  constructor
  · unfold generatePrompt
    exact containsStr_appL _ (containsStr_self _)
  · intro t ht
    unfold generatePrompt
    exact containsStr_appR _ (containsStr_appR _ (containsStr_appR _
      (containsStr_appR _ (containsStr_appL _ (containsStr_appL _
        (toolsPrompt_contains_name tools t ht))))))

theorem C4_prompt_contains_input_and_tools_witness :
    ContainsStr (generatePrompt theAgent "" "what is two plus two")
      "what is two plus two" ∧
    ContainsStr (generatePrompt theAgent "" "what is two plus two")
      "calculator" := by
  have h := C4_prompt_contains_input_and_tools theAgent "" "what is two plus two"
  exact ⟨h.1, h.2 calculatorTool (List.Mem.head _)⟩

/-- Counterexample to C4 as stated: the registered tool set
\x7bcalculator, web_search\x7d rendered in two different map iteration
orders — both orders Go may produce for the same registry — gives two
different prompt strings for the same history and the same user input, so
the prompt builder is not deterministic in the tool set alone. -/
theorem C4_prompt_order_counterexample :
    generatePrompt [calculatorTool, webSearchTool] "" "hi" ≠
      generatePrompt [webSearchTool, calculatorTool] "" "hi" := by
  decide

/-- Amended C1: every external process the disk-agent executor
(`src/main.go`) can spawn has its command and arguments drawn from the
fixed, pre-declared set \x7bdf check, wmic check, docker-compose prune\x7d,
whatever JSON the model produces; but the claim fails for the repository
as a whole, because the interactive agent of part_002 splices the
model-produced command string into `bash -c` (see the counterexample). -/
theorem C1_diskAgent_fixed_commands (toolCallJSON : String) (os : GoOS)
    (usage : Nat) (c : List String)
    (hc : c ∈ executeToolCallSpawns toolCallJSON os usage) :
    c ∈ diskAgentAllowlist := by
  unfold executeToolCallSpawns at hc
  cases hdec : decodeToolCallName toolCallJSON with
  | error e => simp only [hdec] at hc; simp at hc
  | ok n =>
    simp only [hdec] at hc
    by_cases hn : n = "run_disk_agent"
    · subst hn
      rw [if_pos rfl] at hc
      cases os with
      | linux =>
        rcases List.mem_cons.mp hc with rfl | h2
        · exact List.Mem.head _
        · split at h2
          · rw [List.mem_singleton.mp h2]
            exact List.Mem.tail _ (List.Mem.tail _ (List.Mem.head _))
          · simp at h2
      | windows =>
        rcases List.mem_cons.mp hc with rfl | h2
        · exact List.Mem.tail _ (List.Mem.head _)
        · split at h2
          · rw [List.mem_singleton.mp h2]
            exact List.Mem.tail _ (List.Mem.tail _ (List.Mem.head _))
          · simp at h2
      | other => simp at hc
    · rw [if_neg hn] at hc
      simp at hc

theorem C1_diskAgent_fixed_commands_witness :
    dfCheckCmd ∈ executeToolCallSpawns
      "\x7b\"tool_name\": \"run_disk_agent\"\x7d" GoOS.linux 80 ∧
    dfCheckCmd ∈ diskAgentAllowlist :=
  ⟨by decide, C1_diskAgent_fixed_commands
    "\x7b\"tool_name\": \"run_disk_agent\"\x7d" GoOS.linux 80 dfCheckCmd
    (by decide)⟩

/-- Counterexample to C1 as stated: in the interactive agent of part_002,
the command string the model proposes is spliced verbatim into
`bash -c` once the user selects the action.  Two different model responses
produce two different spawned argument vectors — the spawned command is
not drawn from any fixed, pre-declared template, and it is not in the
fixed command set of the disk agent. -/
theorem C1_model_command_in_shell_counterexample :
    gemmaSelectedCommand
        "\x7b\"text\":\"ok\",\"actions\":[\x7b\"label\":\"cleanup\",\"command\":\"rm -rf /\"\x7d]\x7d"
        1 = some ["bash", "-c", "rm -rf /"] ∧
    gemmaSelectedCommand
        "\x7b\"text\":\"ok\",\"actions\":[\x7b\"label\":\"cleanup\",\"command\":\"echo safe\"\x7d]\x7d"
        1 = some ["bash", "-c", "echo safe"] ∧
    ["bash", "-c", "rm -rf /"] ∉ diskAgentAllowlist :=
  ⟨rfl, rfl, by decide⟩

/-- Pre-emptive dispatch on the trigger phrase (C8).  Whenever the
lowercased user input contains "chris tanti", `Run` calls the chris_tanti
tool directly and returns its canned text as the result of the run, making no
model call and leaving the store untouched. -/
theorem C8_trigger_short_circuit (oracle : Nat → String → String) (fs : Fs)
    (historyFilePath userInput : String)
    (h : goContains (goToLower userInput) "chris tanti" = true) :
    run theAgent oracle fs historyFilePath userInput =
      ⟨.ok chrisTantiInfo, fs, 0⟩ := by
  have hlk : lookupTool theAgent "chris_tanti" = some chrisTantiTool := rfl
  have hfn : chrisTantiTool.fn [("query", Json.str userInput)] =
      .ok chrisTantiInfo := by
    show (if goContains (goToLower userInput) "chris tanti" = true then
        (Except.ok chrisTantiInfo : Except String String)
      else Except.ok "I cannot provide information about this person.") =
      Except.ok chrisTantiInfo
    rw [h, if_pos rfl]
  unfold run
  rw [h, if_pos rfl, hlk]
  show (match chrisTantiTool.fn [("query", Json.str userInput)] with
      | Except.error e => ({ result := .error e, fs := fs, calls := 0 } : RunOut)
      | Except.ok toolResult =>
        { result := .ok toolResult, fs := fs, calls := 0 }) =
      { result := .ok chrisTantiInfo, fs := fs, calls := 0 }
  rw [hfn]

/-- Amended C2: a decoded tool invocation whose name is not in the
registry makes the run fail immediately with the `unknown tool` error; no
observation is appended, nothing further is saved, and the loop does not
continue. -/
theorem C2_unknown_tool_aborts (tools : List Tool)
    (oracle : Nat → String → String) (path userInput : String) (i r : Nat)
    (history : String) (fs : Fs) (inv : ToolInvocation)
    (hresp : interpretResponse
      (oracle i (generatePrompt tools history userInput)) = .toolCall inv)
    (hlk : lookupTool tools inv.name = none) :
    runLoop tools oracle path userInput i (r + 1) history fs =
      ⟨.error ("unknown tool: " ++ inv.name), fs, i + 1⟩ := by
  rw [runLoop_succ]
  simp only [hresp, hlk]

theorem C2_unknown_tool_aborts_witness :
    runLoop theAgent (fun _ _ => "\x7b \"name\": \"time_machine\" \x7d")
        "conversation_history.json" "hi" 0 4 "" (fun _ => none) =
      ⟨.error "unknown tool: time_machine", (fun _ => none), 1⟩ :=
  C2_unknown_tool_aborts theAgent
    (fun _ _ => "\x7b \"name\": \"time_machine\" \x7d")
    "conversation_history.json" "hi" 0 3 "" (fun _ => none)
    ⟨"time_machine", []⟩ rfl rfl

/-- Counterexample to C2 as stated: with the registered agent and a model
response invoking the unregistered tool `time_machine`, the run terminates
at the first iteration with the `unknown tool` error; the failure is not
surfaced as an observation (the history file is never written) and the
loop does not continue to another iteration. -/
theorem C2_unknown_tool_counterexample :
    (run theAgent (fun _ _ => "\x7b \"name\": \"time_machine\" \x7d")
        (fun _ => none) "conversation_history.json" "hi").result =
      .error "unknown tool: time_machine" ∧
    (run theAgent (fun _ _ => "\x7b \"name\": \"time_machine\" \x7d")
        (fun _ => none) "conversation_history.json" "hi").calls = 1 ∧
    (run theAgent (fun _ _ => "\x7b \"name\": \"time_machine\" \x7d")
        (fun _ => none) "conversation_history.json" "hi").fs
      "conversation_history.json" = none :=
  ⟨rfl, rfl, rfl⟩

/-- Division by zero in the calculator is a local failure (C6): the
callable fails with the `division by zero` error, and a loop iteration
whose decoded action is such a call folds the failure into the history as
an observation turn and proceeds to the next iteration instead of
terminating the run. -/
theorem C6_divide_by_zero_recovered (args : List (String × Json))
    (hop : jGet args "operation" = some (.str "divide"))
    (h1 : ∃ q, jGet args "num1" = some (.num q))
    (h2 : jGet args "num2" = some (.num 0)) :
    calculatorFn args = .error "division by zero" ∧
    ∀ (oracle : Nat → String → String) (path userInput : String) (i r : Nat)
      (history : String) (fs : Fs),
      interpretResponse
          (oracle i (generatePrompt theAgent history userInput)) =
        .toolCall ⟨"calculator", args⟩ →
      runLoop theAgent oracle path userInput i (r + 1) history fs =
        runLoop theAgent oracle path userInput (i + 1) r
          (history ++
            "\nObservation: Tool execution failed with error: division by zero")
          (fsWrite fs path (history ++
            "\nObservation: Tool execution failed with error: division by zero")) := by
  obtain ⟨q, hq⟩ := h1
  have hcalc : calculatorFn args = .error "division by zero" := by
    unfold calculatorFn
    simp only [hop, hq, h2]
    rfl
  refine ⟨hcalc, ?_⟩
  intro oracle path userInput i r history fs hresp
  have hlk : lookupTool theAgent "calculator" = some calculatorTool := rfl
  have hfn : calculatorTool.fn args = Except.error "division by zero" := hcalc
  rw [runLoop_succ]
  simp only [hresp, hlk, hfn, str_append_assoc]
  rfl

theorem C6_divide_by_zero_recovered_witness :
    calculatorFn [("num1", Json.num 5), ("num2", Json.num 0),
        ("operation", Json.str "divide")] = .error "division by zero" ∧
    runLoop theAgent
        (fun _ _ => "\x7b \"name\": \"calculator\", \"arguments\": \x7b\"num1\": 5, \"num2\": 0, \"operation\": \"divide\"\x7d, \"note\": \"go\" \x7d")
        "conversation_history.json" "divide 5 by 0" 0 4 "" (fun _ => none) =
      runLoop theAgent
        (fun _ _ => "\x7b \"name\": \"calculator\", \"arguments\": \x7b\"num1\": 5, \"num2\": 0, \"operation\": \"divide\"\x7d, \"note\": \"go\" \x7d")
        "conversation_history.json" "divide 5 by 0" 1 3
        ("" ++ "\nObservation: Tool execution failed with error: division by zero")
        (fsWrite (fun _ => none) "conversation_history.json"
          ("" ++ "\nObservation: Tool execution failed with error: division by zero")) := by
  have h := C6_divide_by_zero_recovered
    [("num1", Json.num 5), ("num2", Json.num 0),
      ("operation", Json.str "divide")] rfl ⟨5, rfl⟩ rfl
  refine ⟨h.1, h.2
    (fun _ _ => "\x7b \"name\": \"calculator\", \"arguments\": \x7b\"num1\": 5, \"num2\": 0, \"operation\": \"divide\"\x7d, \"note\": \"go\" \x7d")
    "conversation_history.json" "divide 5 by 0" 0 3 "" (fun _ => none) ?_⟩
  with_unfolding_all rfl

theorem runLoop_no_final (tools : List Tool)
    (oracle : Nat → String → String) (path userInput : String)
    (hall : ∀ j p, continuesLoop tools (oracle j p) = true) :
    ∀ (r i : Nat) (history : String) (fs : Fs),
      (runLoop tools oracle path userInput i r history fs).result =
        .error maxStepsMsg ∧
      (runLoop tools oracle path userInput i r history fs).calls = i + r := by
  intro r
  induction r with
  | zero =>
    intro i history fs
    rw [runLoop_zero]
    exact ⟨rfl, rfl⟩
  | succ r ih =>
    intro i history fs
    have h := hall i (generatePrompt tools history userInput)
    unfold continuesLoop at h
    rw [runLoop_succ]
    cases hi : interpretResponse
        (oracle i (generatePrompt tools history userInput)) with
    | final a => rw [hi] at h; simp at h
    | noActionFound => rw [hi] at h; simp at h
    | unmarshalFailed => rw [hi] at h; simp at h
    | toolCall inv =>
      simp only [hi] at h
      cases hlk : lookupTool tools inv.name with
      | none => rw [hlk] at h; simp at h
      | some tool =>
        simp only [hlk]
        cases hfn : tool.fn inv.args with
        | error e =>
          simp only [hfn]
          refine ⟨(ih _ _ _).1, ?_⟩
          rw [(ih _ _ _).2]
          omega
        | ok toolResult =>
          simp only [hfn]
          refine ⟨(ih _ _ _).1, ?_⟩
          rw [(ih _ _ _).2]
          omega

/-- Amended C5: when the chris-tanti short-circuit does not fire and every
model response drives a normal tool step (a decoded call on a registered
tool, so no iteration reaches FINAL and none aborts early), the loop stops
after exactly five iterations — five model calls — and the run fails with
the distinct max-steps error, returning no answer. -/
theorem C5_max_steps_after_five (oracle : Nat → String → String) (fs : Fs)
    (path userInput : String)
    (hall : ∀ j p, continuesLoop theAgent (oracle j p) = true)
    (htrig : goContains (goToLower userInput) "chris tanti" = false) :
    (run theAgent oracle fs path userInput).result = .error maxStepsMsg ∧
    (run theAgent oracle fs path userInput).calls = 5 := by
  simp only [run]
  rw [htrig, if_neg Bool.false_ne_true]
  exact ⟨(runLoop_no_final theAgent oracle path userInput hall 5 0 _ fs).1,
    (runLoop_no_final theAgent oracle path userInput hall 5 0 _ fs).2⟩

theorem C5_max_steps_after_five_witness :
    (run theAgent (fun _ _ => "\x7b \"name\": \"web_search\" \x7d")
        (fun _ => none) "conversation_history.json" "hi").result =
      .error maxStepsMsg ∧
    (run theAgent (fun _ _ => "\x7b \"name\": \"web_search\" \x7d")
        (fun _ => none) "conversation_history.json" "hi").calls = 5 :=
  C5_max_steps_after_five (fun _ _ => "\x7b \"name\": \"web_search\" \x7d")
    (fun _ => none) "conversation_history.json" "hi" (fun _ _ => rfl) rfl

/-- Counterexample to C5 as stated: a run whose model response contains
neither a final answer nor a recognizable tool action never reaches the
FINAL state, yet it stops after one iteration with the `no action` error —
not after five iterations and not with the max-steps failure. -/
theorem C5_early_failure_counterexample :
    (run theAgent (fun _ _ => "I do not know what to do.") (fun _ => none)
        "conversation_history.json" "hi").result = .error noActionMsg ∧
    (run theAgent (fun _ _ => "I do not know what to do.") (fun _ => none)
        "conversation_history.json" "hi").calls = 1 ∧
    noActionMsg ≠ maxStepsMsg :=
  ⟨rfl, rfl, by decide⟩

theorem C8_trigger_short_circuit_witness :
    run theAgent (fun _ _ => "") (fun _ => none) "conversation_history.json"
      "Tell me about Chris Tanti" =
      ⟨.ok chrisTantiInfo, (fun _ => none), 0⟩ :=
  C8_trigger_short_circuit (fun _ _ => "") (fun _ => none)
    "conversation_history.json" "Tell me about Chris Tanti" (by decide)

